import Mathlib

/-
Verification of the diffusion core of the diffspeak repository.

The embedding below translates, over the rationals, the numeric and control
logic of two source files:
  src/diffspeak/lightning_classes/lightningmodule_model.py  (schedule
  derivation, reverse sampling loop, training-time noise injection)
  src/diffspeak/datasets/dataset.py                          (batch collator)

Embedding conventions:
 - tensors of samples become lists of rationals; elementwise tensor
   arithmetic becomes List.map / List.zipWith;
 - the fractional power `x ** 0.5` is embedded as an abstract square-root
   oracle `sqrt : Rat -> Rat` passed as a parameter: every theorem below is
   proved for an arbitrary oracle, so nothing depends on its values;
 - the external denoiser network (the spec's denoiser capability; the model
   class `cfg.model.class_name` is not under src/) is an abstract function
   parameter; its `.squeeze(1)` output normalization is folded into the
   parameter, which returns the already-squeezed prediction;
 - pseudo-random draws (torch.randn, torch.randint, random.randint) are
   modelled by quantifying over the drawn value within its documented range,
   or by oracle functions supplying the draws;
 - Python failures (AttributeError, UnboundLocalError, IndexError, the
   RuntimeError that torch.stack raises on an empty tensor list) are
   modelled with an explicit error type and Except.
-/

namespace DW

/-- Python-level failures observable in the embedded fragments, plus the
spec's section-7 `EmptyBatchError`, which is part of the spec's error
taxonomy and is stated here so that theorems can compare the source's
actual error against it. -/
inductive PyErr where
  | attributeError
  | unboundLocalError
  | indexError
  | typeError
  | stackRuntimeError
  | emptyBatchError
  deriving DecidableEq, Repr

/-- Elementwise clamp of one sample to the interval from -1 to 1:
`torch.clamp(x, -1.0, 1.0)` (lightningmodule_model.py line 66). -/
def clamp1 (x : ℚ) : ℚ := max (-1) (min 1 x)

/-- Cumulative product along dimension 0: `torch.cumprod(xs, 0)`. -/
def cumprod : List ℚ → List ℚ
  | [] => []
  | x :: xs => x :: (cumprod xs).map (fun c => x * c)

/-- Line 32: `alpha_train = torch.ones_like(beta) - beta`. -/
def alpha (beta : List ℚ) : List ℚ := beta.map (fun b => 1 - b)

/-- Line 33: `alpha_train_cum = torch.cumprod(alpha_train, 0)`. -/
def alpha_cum (beta : List ℚ) : List ℚ := cumprod (alpha beta)

/-- Modelled from the spec: the external DiffWave model object
(`cfg.model.class_name`, a class not under src/) carries the schedule data
the Lightning module reads from it: `noise_schedule` (the ordered beta
sequence of section 4.1) and `noise_level` (the precomputed per-timestep
table read by the training step). -/
structure ModelAttrs where
  noise_schedule : List ℚ
  noise_level : List ℚ

/-- Attribute names looked up on the model object in the embedded code. -/
inductive AttrName where
  | noise_schedule
  | noise_level
  | noise_shedule
  deriving DecidableEq, Repr

/-- Modelled from the spec: Python attribute lookup on the external model
object. The model exposes `noise_schedule` and `noise_level`; it has no
attribute spelled `noise_shedule` (the misspelling read at line 38), so that
lookup yields none, which in Python is an AttributeError. -/
def modelGetAttr (m : ModelAttrs) : AttrName → Option (List ℚ)
  | AttrName.noise_schedule => some m.noise_schedule
  | AttrName.noise_level => some m.noise_level
  | AttrName.noise_shedule => none

/-- Lines 188-189: `def adjust_Ts(self, inference_noise): pass` — the body
is empty, so the call returns None for every argument. -/
def adjust_Ts (_inference_noise : List ℚ) : Option (List ℕ) := none

/-- One iteration of the reverse sampling loop, lines 52-66, at loop index
`n` (the Python loop variable).  Lines 53-54 first assign the coefficients
`c1` and `c2`, read at index `n` of `alpha_train`, `beta` and
`alpha_train_cum` (dead stores here, since the iteration fails before they
are consumed).  The update statement at lines 55-56 then evaluates the
arguments of `self(audio, torch.tensor([T[n]]), spectrogram)`: the
subscript `T[n]` raises IndexError when `n` is out of range of `T`.  When
the subscript succeeds, the call itself is performed - and `self(...)` on a
LightningModule dispatches to `self.forward`, i.e. re-enters this very
sampling function, NOT the external denoiser `self.model` (contrast
`training_step` line 102, which calls `self.model(...)`).  The re-entered
forward receives the audio tensor as `x`, and its first statement
`spectrogram = x["spectrogram"]` (line 28) raises a TypeError, because a
tensor cannot be indexed by a string.  No iteration therefore ever
completes: the update, the stochastic-noise branch (lines 58-65) and the
clamp (line 66) are never reached. -/
def reverseStep (sqrt : ℚ → ℚ) (beta : List ℚ) (T : List ℕ)
    (n : ℕ) (sig : List ℚ) : Except PyErr (List ℚ) :=
  let c1 := 1 / sqrt ((alpha beta).getD n 0)
  let c2 := beta.getD n 0 / sqrt (1 - (alpha_cum beta).getD n 0)
  match T.get? n with
  | none => Except.error PyErr.indexError
  | some _ => Except.error PyErr.typeError

/-- The reverse sampling loop, lines 52-66:
`for n in range(len(alpha_train) - 1, -1, -1): ...`, i.e. the loop indices
are `len(beta) - 1` down to `0` regardless of the length of `T`; the fold
short-circuits at the first failing iteration, which on any nonempty
schedule is the first one. -/
def reverseLoop (sqrt : ℚ → ℚ) (beta : List ℚ) (T : List ℕ)
    (sig0 : List ℚ) : Except PyErr (List ℚ) :=
  (List.range beta.length).reverse.foldlM
    (fun sig n => reverseStep sqrt beta T n sig) sig0

/-- Defined from the spec's words (claim C1, section 4.4), for comparison
with `reverseStep`: the per-iteration update with every coefficient taken
at the re-indexed timestep `T[n]`:
`c1 = alpha(T[n])^(-1/2)`, `c2 = beta(T[n]) / sqrt(1 - alpha_cum(T[n]))`,
the denoiser invoked at `T[n]`, and for `n > 0` the stochastic term with
`sigma = sqrt((1 - alpha_cum(T[n-1])) / (1 - alpha_cum(T[n])) * beta(T[n]))`. -/
def specReverseStep (sqrt : ℚ → ℚ) (beta : List ℚ) (T : List ℕ)
    (eps2 : List ℚ → ℕ → List ℚ) (noiseAt : ℕ → List ℚ)
    (n : ℕ) (sig : List ℚ) : List ℚ :=
  let tn := T.getD n 0
  let c1 := 1 / sqrt ((alpha beta).getD tn 0)
  let c2 := beta.getD tn 0 / sqrt (1 - (alpha_cum beta).getD tn 0)
  let sig1 := List.zipWith (fun a e => c1 * (a - c2 * e)) sig (eps2 sig tn)
  let sig2 :=
    if 0 < n then
      let tp := T.getD (n - 1) 0
      let sigma := sqrt ((1 - (alpha_cum beta).getD tp 0)
        / (1 - (alpha_cum beta).getD tn 0) * beta.getD tn 0)
      List.zipWith (fun a z => a + sigma * z) sig1 (noiseAt n)
    else sig1
  sig2.map clamp1

/-- Defined from the spec's words (claim C1, section 4.4): the loop runs
`n` from `M - 1` down to `0` where `M` is the length of the re-indexed
sequence `T`. -/
def specReverseLoop (sqrt : ℚ → ℚ) (beta : List ℚ) (T : List ℕ)
    (eps2 : List ℚ → ℕ → List ℚ) (noiseAt : ℕ → List ℚ)
    (sig0 : List ℚ) : List ℚ :=
  (List.range T.length).reverse.foldl
    (fun sig n => specReverseStep sqrt beta T eps2 noiseAt n sig) sig0

/-- Lines 43-46: a rank-2 conditioning spectrogram gains a batch dimension
of size 1 (`spectrogram.unsqueeze(0)`); shapes are modelled as dimension
lists. -/
def normalizeSpecShape (s : List ℕ) : List ℕ := if s.length = 2 then 1 :: s else s

/-- Lines 47-50: the shape handed to `torch.randn` for the initial audio,
`[spectrogram.shape[0], hop_samples * spectrogram.shape[-1]]`, computed
after the rank-2 normalization. -/
def initAudioShape (hop : ℕ) (s : List ℕ) : List ℕ :=
  [(normalizeSpecShape s).headD 0, hop * (normalizeSpecShape s).getLastD 0]

/-- The configuration surface the sampling call reads (section 6):
`inference_noise`, `model.params.unconditional`, `model.params.hop_samples`. -/
structure Cfg where
  inference_noise : Option (List ℚ)
  unconditional : Bool
  hop_samples : ℕ

/-- LitDiffWaveModel.forward, lines 26-68.
Control flow follows the source:
 - lines 31-35 derive `alpha_train`, `alpha_train_cum` and the identity
   re-indexing `T = list(range(len(alpha_train_cum)))`;
 - lines 37-40: when `cfg.inference_noise` is not None the guard evaluates
   `self.model.noise_shedule`; that attribute does not exist, so the call
   raises AttributeError there.  (Had the attribute existed, a differing
   schedule would set `T = self.adjust_Ts(...)`, which returns None, and
   the first subscript `T[n]` would raise a TypeError.)
 - lines 42-50: only in conditional mode is `audio` initialized, from
   `torch.randn` on `initAudioShape` (whose batch dimension comes from the
   rank-2 normalization `normalizeSpecShape`); in unconditional mode
   `audio` is never assigned, so its first use in the loop raises
   UnboundLocalError;
 - lines 52-66: the reverse loop (`reverseLoop` above), every iteration of
   which fails inside the mistargeted `self(...)` call of line 56.
The parameters `_eps3` (the external denoiser capability, which line 56
never reaches, since `self(...)` is not `self.model(...)`) and `_noiseAt`
(the per-iteration Gaussian draws of lines 58-65, never reached either)
are retained as inputs of the sampling call but cannot influence its
result; the normalized conditioning spectrogram would be an argument of
the failing call and is observable only through the `initAudioShape`
handed to `randn`. -/
def forward (cfg : Cfg) (m : ModelAttrs) (sqrt : ℚ → ℚ)
    (randn : List ℕ → List ℚ) (_eps3 : List ℚ → ℕ → List ℕ → List ℚ)
    (_noiseAt : ℕ → List ℚ) (specShape : List ℕ) : Except PyErr (List ℚ) :=
  let beta := m.noise_schedule
  let T0 := List.range (alpha_cum beta).length
  let runLoop : List ℕ → Except PyErr (List ℚ) := fun T =>
    if cfg.unconditional then Except.error PyErr.unboundLocalError
    else
      let sig0 := randn (initAudioShape cfg.hop_samples specShape)
      reverseLoop sqrt beta T sig0
  match cfg.inference_noise with
  | none => runLoop T0
  | some infNoise =>
    match modelGetAttr m AttrName.noise_shedule with
    | none => Except.error PyErr.attributeError
    | some sched =>
      if infNoise = sched then runLoop T0
      else
        match adjust_Ts infNoise with
        | none => Except.error PyErr.typeError
        | some T1 => runLoop T1

/-- Training-step noise injection, lines 94-100: for one example at drawn
timestep `t`, `noise_scale = self.model.noise_level[t]` and
`noisy_audio = noise_scale**0.5 * audio + (1.0 - noise_scale)**0.5 * noise`. -/
def training_noisy_audio (sqrt : ℚ → ℚ) (m : ModelAttrs) (t : ℕ)
    (sig noise : List ℚ) : List ℚ :=
  let noise_scale := m.noise_level.getD t 0
  let noise_scale_sqrt := sqrt noise_scale
  List.zipWith (fun a z => noise_scale_sqrt * a + sqrt (1 - noise_scale) * z) sig noise

/-- Collator.collate, unconditional branch, dataset.py lines 63-80, for one
record whose random draw is `start`: records shorter than `audio_len` are
dropped (none); otherwise the window `audio[start:end]` with
`end = start + audio_len` is taken (`torch.squeeze` of a 1-D window is the
identity in this 1-D embedding) and right-padded with zeros by
`(end - start) - len(window)` via `F.pad`. -/
def collateUncondRecord (audioLen : ℕ) (start : ℕ) (clip : List ℚ) :
    Option (List ℚ) :=
  if clip.length < audioLen then none
  else
    let e := start + audioLen
    let w := (clip.drop start).take (e - start)
    some (w ++ List.replicate ((e - start) - w.length) 0)

/-- Collator.collate, conditional branch, dataset.py lines 82-109, for one
record whose random draw is `start`: records whose spectrogram has fewer
than `crop_mel_frames` frames are dropped; otherwise the spectrogram
window `spectrogram[start:end].T` is taken (`end = start + crop_mel_frames`),
then `start` and `end` are multiplied by `hop_samples` and the audio is
sliced over that range and right-zero-padded by `(end - start) - len(window)`. -/
def collateCondRecord (hop crop : ℕ) (start : ℕ)
    (spec : List (List ℚ)) (clip : List ℚ) :
    Option (List (List ℚ) × List ℚ) :=
  if spec.length < crop then none
  else
    let e := start + crop
    let specW := ((spec.drop start).take (e - start)).transpose
    let s2 := start * hop
    let e2 := e * hop
    let w := (clip.drop s2).take (e2 - s2)
    some (specW, w ++ List.replicate ((e2 - s2) - w.length) 0)

/-- torch.stack over the surviving windows, dataset.py lines 111-113: on an
empty tensor list torch.stack raises a RuntimeError.  (Stacking windows of
unequal length would also fail; the claims under study never reach that
case, since every surviving window has the required fixed length.) -/
def stack (xs : List (List ℚ)) : Except PyErr (List (List ℚ)) :=
  match xs with
  | [] => Except.error PyErr.stackRuntimeError
  | _ => Except.ok xs

/-- Collator.collate, unconditional mode, over a whole minibatch: the
records are processed pairwise with their random draws, the dropped ones
are filtered out (`if "audio" in record`), and the survivors are stacked. -/
def collate_unconditional (audioLen : ℕ) (starts : List ℕ)
    (batch : List (List ℚ)) : Except PyErr (List (List ℚ)) :=
  stack ((List.zipWith (collateUncondRecord audioLen) starts batch).filterMap id)

lemma cumprod_length (xs : List ℚ) : (cumprod xs).length = xs.length := by
  induction xs with
  | nil => rfl
  | cons x xs ih => simp [cumprod, ih]

lemma cumprod_getElem?_succ (x : ℚ) (xs : List ℚ) (i : ℕ) :
    (cumprod (x :: xs))[i + 1]? = ((cumprod xs)[i]?).map (fun c => x * c) := by
  simp [cumprod, List.getElem?_map]

lemma cumprod_pos_lt_one (xs : List ℚ) (hx : ∀ x ∈ xs, 0 < x ∧ x < 1) :
    ∀ (i : ℕ) (c : ℚ), (cumprod xs)[i]? = some c → 0 < c ∧ c < 1 := by
  induction xs with
  | nil => intro i c h; simp [cumprod] at h
  | cons x xs ih =>
    intro i c h
    cases i with
    | zero =>
      simp [cumprod] at h
      obtain ⟨hx0, hx1⟩ := hx x (List.mem_cons_self x xs)
      subst h
      exact ⟨hx0, hx1⟩
    | succ i =>
      rw [cumprod_getElem?_succ] at h
      cases h2 : (cumprod xs)[i]? with
      | none => rw [h2] at h; simp at h
      | some d =>
        rw [h2] at h
        simp at h
        obtain ⟨hd0, hd1⟩ :=
          ih (fun y hy => hx y (List.mem_cons_of_mem x hy)) i d h2
        obtain ⟨hx0, hx1⟩ := hx x (List.mem_cons_self x xs)
        subst h
        exact ⟨mul_pos hx0 hd0, by nlinarith⟩

lemma cumprod_succ_lt (xs : List ℚ) (hx : ∀ x ∈ xs, 0 < x ∧ x < 1) :
    ∀ (i : ℕ) (c c' : ℚ), (cumprod xs)[i]? = some c →
      (cumprod xs)[i + 1]? = some c' → c' < c := by
  induction xs with
  | nil => intro i c c' h _; simp [cumprod] at h
  | cons x xs ih =>
    intro i c c' h h'
    obtain ⟨hx0, hx1⟩ := hx x (List.mem_cons_self x xs)
    have hxs : ∀ y ∈ xs, 0 < y ∧ y < 1 :=
      fun y hy => hx y (List.mem_cons_of_mem x hy)
    cases i with
    | zero =>
      simp [cumprod] at h
      rw [cumprod_getElem?_succ] at h'
      cases h2 : (cumprod xs)[0]? with
      | none => rw [h2] at h'; simp at h'
      | some d =>
        rw [h2] at h'
        simp at h'
        obtain ⟨hd0, hd1⟩ := cumprod_pos_lt_one xs hxs 0 d h2
        subst h
        subst h'
        nlinarith
    | succ i =>
      rw [cumprod_getElem?_succ] at h h'
      cases h2 : (cumprod xs)[i]? with
      | none => rw [h2] at h; simp at h
      | some d =>
        cases h3 : (cumprod xs)[i + 1]? with
        | none => rw [h3] at h'; simp at h'
        | some d' =>
          rw [h2] at h
          rw [h3] at h'
          simp at h h'
          subst h
          subst h'
          exact mul_lt_mul_of_pos_left (ih hxs i d d' h2 h3) hx0

lemma alpha_mem_Ioo (beta : List ℚ) (hb : ∀ b ∈ beta, 0 < b ∧ b < 1) :
    ∀ a ∈ alpha beta, 0 < a ∧ a < 1 := by
  intro a ha
  simp only [alpha, List.mem_map] at ha
  obtain ⟨b, hbmem, rfl⟩ := ha
  obtain ⟨h1, h2⟩ := hb b hbmem
  exact ⟨by linarith, by linarith⟩

lemma alpha_cum_length (beta : List ℚ) : (alpha_cum beta).length = beta.length := by
  simp [alpha_cum, cumprod_length, alpha]

/-- C8: for every beta sequence with each value in (0,1), the derived
alpha_cum sequence (lines 31-33: alpha = 1 - beta, alpha_cum = cumprod of
alpha) has every value in (0,1), is strictly decreasing, and for a
single-step schedule satisfies alpha_cum(0) = alpha(0). -/
theorem c8_alpha_cum_invariant (beta : List ℚ)
    (hb : ∀ b ∈ beta, 0 < b ∧ b < 1) :
    (∀ i, i < beta.length →
      0 < (alpha_cum beta).getD i 1 ∧ (alpha_cum beta).getD i 1 < 1) ∧
    (∀ i, 0 < i → i < beta.length →
      (alpha_cum beta).getD i 1 < (alpha_cum beta).getD (i - 1) 1) ∧
    (beta.length = 1 → (alpha_cum beta).getD 0 1 = (alpha beta).getD 0 1) := by
  have hal := alpha_mem_Ioo beta hb
  have hlen : (alpha_cum beta).length = beta.length := alpha_cum_length beta
  refine ⟨?_, ?_, ?_⟩
  · intro i hi
    have hi' : i < (alpha_cum beta).length := by omega
    have hc := List.getElem?_eq_getElem hi'
    rw [List.getD_eq_getElem?_getD, hc]
    exact cumprod_pos_lt_one (alpha beta) hal i _ hc
  · intro i h0 hi
    obtain ⟨j, rfl⟩ : ∃ j, i = j + 1 := ⟨i - 1, by omega⟩
    have hj : j < (alpha_cum beta).length := by omega
    have hj1 : j + 1 < (alpha_cum beta).length := by omega
    have hc := List.getElem?_eq_getElem hj
    have hc' := List.getElem?_eq_getElem hj1
    rw [List.getD_eq_getElem?_getD, List.getD_eq_getElem?_getD]
    simp only [Nat.add_sub_cancel]
    rw [hc, hc']
    exact cumprod_succ_lt (alpha beta) hal j _ _ hc hc'
  · intro h1
    match beta, h1 with
    | [b], _ => simp [alpha_cum, alpha, cumprod]

/-- Witness for C8 at the concrete schedule beta = [1/2, 1/3]. -/
theorem c8_alpha_cum_invariant_witness :
    (0 : ℚ) < (alpha_cum [1/2, 1/3]).getD 1 1 ∧
    (alpha_cum [1/2, 1/3]).getD 1 1 < (alpha_cum [1/2, 1/3]).getD 0 1 ∧
    (alpha_cum [1/2, 1/3]).getD 0 1 < 1 := by
  have h := c8_alpha_cum_invariant [1/2, 1/3] (by
    intro b hb
    simp only [List.mem_cons, List.mem_singleton, List.not_mem_nil, or_false] at hb
    rcases hb with rfl | rfl <;> constructor <;> norm_num)
  exact ⟨(h.1 1 (by norm_num)).1, h.2.1 1 (by norm_num) (by norm_num),
    (h.1 0 (by norm_num)).2⟩

lemma foldlM_first_error {α β : Type} (f : β → α → Except PyErr β) (x : α)
    (xs : List α) (a : β) (e : PyErr) (hx : f a x = Except.error e) :
    (x :: xs).foldlM f a = Except.error e := by
  rw [List.foldlM_cons, hx]
  rfl

/-- C1 (amended): when no shorter inference schedule is supplied, `T` is
the identity sequence over the schedule, so `M = T.length = S` and
`T[n] = n` - that part of the claim holds.  The loop's bound, however, is
the schedule length (`range(len(alpha_train) - 1, -1, -1)`), and the
coefficients `c1` and `c2` are read at the loop index `n` (which on this
path coincides with the claimed `T[n]`); and no per-iteration update ever
completes: for every in-range `n` the subscript `T[n]` succeeds, but the
call at line 56 is `self(...)` - a re-entry into forward, not a denoiser
invocation - and raises TypeError, so on any nonempty schedule the whole
loop evaluates to that error at its first iteration `n = S-1`.  (For a
re-indexed `T` shorter than `S`, the subscript `T[n]` itself raises
IndexError first - see the counterexample.) -/
theorem c1_reverse_loop_identity_reindex (sqrt : ℚ → ℚ) (beta : List ℚ)
    (T : List ℕ) (sig0 : List ℚ)
    (hT : T = List.range beta.length) (hS : 1 ≤ beta.length) :
    T.length = beta.length ∧
    (∀ n, n < beta.length → T.getD n 0 = n) ∧
    (∀ (n : ℕ) (sig : List ℚ), n < beta.length →
      reverseStep sqrt beta T n sig = Except.error PyErr.typeError) ∧
    reverseLoop sqrt beta T sig0 = Except.error PyErr.typeError := by
  subst hT
  have hstep : ∀ (n : ℕ) (sig : List ℚ), n < beta.length →
      reverseStep sqrt beta (List.range beta.length) n sig =
        Except.error PyErr.typeError := by
    intro n sig hn
    have hget : (List.range beta.length).get? n = some n := by
      simp [List.get?_eq_getElem?, List.getElem?_range, hn]
    simp only [reverseStep, hget]
  refine ⟨List.length_range beta.length, ?_, hstep, ?_⟩
  · intro n hn
    simp [List.getD_eq_getElem?_getD, List.getElem?_range, hn]
  · obtain ⟨k, hk⟩ : ∃ k, beta.length = k + 1 := ⟨beta.length - 1, by omega⟩
    have hrev : (List.range beta.length).reverse =
        k :: (List.range k).reverse := by
      rw [hk, List.range_succ, List.reverse_append]
      rfl
    unfold reverseLoop
    rw [hrev]
    exact foldlM_first_error _ k _ sig0 PyErr.typeError
      (hstep k sig0 (by omega))

/-- Counterexample to C1 as stated: for the re-indexed sequence T = [0] of
length M = 1 over a schedule of length S = 2, the source loop does not run
`n` from `M-1` down to `0` performing the claimed update: it starts at
`n = S-1 = 1`, where the subscript `T[1]` raises IndexError, so the claimed
per-T[n] update (the spec-side `specReverseLoop`) is never performed. -/
theorem c1_counterexample :
    reverseLoop (fun x => x) [1/2, 1/3] [0] [0] =
      Except.error PyErr.indexError ∧
    reverseLoop (fun x => x) [1/2, 1/3] [0] [0] ≠
      Except.ok (specReverseLoop (fun x => x) [1/2, 1/3] [0]
        (fun _ _ => [0]) (fun _ => [0]) [0]) := by
  have h : reverseLoop (fun x => (x : ℚ)) [1/2, 1/3] [0] [0] =
      Except.error PyErr.indexError := rfl
  exact ⟨h, by rw [h]; simp⟩

/-- Witness for C1 at the concrete identity re-indexing T = [0, 1] over the
schedule beta = [1/2, 1/3]. -/
theorem c1_reverse_loop_identity_reindex_witness :
    ([0, 1] : List ℕ).length = [(1 : ℚ)/2, 1/3].length ∧
    reverseLoop (fun x => x) [1/2, 1/3] [0, 1] [0] =
      Except.error PyErr.typeError := by
  have h := c1_reverse_loop_identity_reindex (fun x => x) [1/2, 1/3] [0, 1]
    [0] (by decide) (by decide)
  exact ⟨h.1, h.2.2.2⟩

/-- C7 fails on the code: the loop body's clamp (line 66) and its
noise-only-when-n-positive branch (lines 58-65) are never reached, because
every iteration raises inside line 56's `self(...)` call - a re-entry into
forward, not a denoiser invocation - so a single-inference-step run (M = 1,
a one-step schedule) produces no output at all, clamped or otherwise: at
its only iteration n = 0 the subscript T[0] succeeds and the call raises
TypeError, both at loop level and through the full sampling entry point. -/
theorem c7_single_step_never_completes :
    reverseLoop (fun x => x) [1/2] [0] [0] = Except.error PyErr.typeError ∧
    forward ⟨none, false, 256⟩ ⟨[1/2], [1/2]⟩ (fun x => x) (fun _ => [0])
      (fun _ _ _ => [0]) (fun _ => [0]) [3, 4] =
      Except.error PyErr.typeError := by
  exact ⟨rfl, rfl⟩

/-- C2: the training-step corruption (lines 94-100).  For any timestep t in
[0, S) - the range of `torch.randint(0, len(self.model.noise_schedule), [N])`
for each of the N examples - the noise level is read by indexing the model's
precomputed `noise_level` table at t (the computation depends only on that
table, never on the beta sequence), the table holds alpha_cum, the corrupted
example is sqrt(noise_level) * audio + sqrt(1 - noise_level) * noise, and
for all-zero audio and all-zero noise the result is exactly zero. -/
theorem c2_training_noise_injection (sqrt : ℚ → ℚ) (m : ModelAttrs)
    (t L : ℕ) (sig noise : List ℚ)
    (htable : m.noise_level = alpha_cum m.noise_schedule)
    (ht : t < m.noise_schedule.length) :
    training_noisy_audio sqrt m t sig noise =
      List.zipWith (fun a z =>
        sqrt ((alpha_cum m.noise_schedule).getD t 0) * a +
        sqrt (1 - (alpha_cum m.noise_schedule).getD t 0) * z) sig noise ∧
    (∀ m' : ModelAttrs, m'.noise_level = m.noise_level →
      training_noisy_audio sqrt m' t sig noise =
        training_noisy_audio sqrt m t sig noise) ∧
    training_noisy_audio sqrt m t (List.replicate L 0) (List.replicate L 0) =
      List.replicate L 0 := by
  refine ⟨?_, ?_, ?_⟩
  · simp only [training_noisy_audio, htable]
  · intro m' hm'
    simp only [training_noisy_audio, hm']
  · simp [training_noisy_audio, List.zipWith_replicate, min_self]

/-- Witness for C2 at the schedule beta = [1/2, 1/3] with the precomputed
table, timestep 1 and three samples. -/
theorem c2_training_noise_injection_witness :
    training_noisy_audio (fun x => x) ⟨[1/2, 1/3], alpha_cum [1/2, 1/3]⟩ 1
      (List.replicate 3 0) (List.replicate 3 0) = List.replicate 3 0 :=
  (c2_training_noise_injection (fun x => x) ⟨[1/2, 1/3], alpha_cum [1/2, 1/3]⟩
    1 3 (List.replicate 3 0) (List.replicate 3 0) rfl (by decide)).2.2

/-- C3: unconditional collation of one record (dataset.py lines 63-80): a
clip shorter than audio_len is dropped (filtering, not an error); a
surviving clip, for any start draw in the inclusive range
[0, len - audio_len] of `random.randint`, yields exactly the window
[start, start + audio_len), whose length is exactly audio_len (the
right-zero-padding amount is zero for an in-range start). -/
theorem c3_collate_unconditional_record (audioLen start : ℕ) (clip : List ℚ)
    (hlen : audioLen ≤ clip.length) (hstart : start ≤ clip.length - audioLen) :
    collateUncondRecord audioLen start clip =
      some ((clip.drop start).take audioLen) ∧
    ((clip.drop start).take audioLen).length = audioLen ∧
    (∀ clip' : List ℚ, clip'.length < audioLen →
      collateUncondRecord audioLen start clip' = none) := by
  have hw : ((clip.drop start).take audioLen).length = audioLen := by
    simp only [List.length_take, List.length_drop]
    omega
  have hnot : ¬ clip.length < audioLen := by omega
  refine ⟨?_, hw, ?_⟩
  · simp only [collateUncondRecord, if_neg hnot, Nat.add_sub_cancel_left, hw,
      Nat.sub_self, List.replicate_zero, List.append_nil]
  · intro clip' h
    simp only [collateUncondRecord, if_pos h]

/-- Witness for C3: audio_len = 4, a clip of length 10, start draw 6 (the
largest admissible offset); and a clip of length 2 is dropped. -/
theorem c3_collate_unconditional_record_witness :
    collateUncondRecord 4 6 [1, 2, 3, 4, 5, 6, 7, 8, 9, 10] =
      some ((([1, 2, 3, 4, 5, 6, 7, 8, 9, 10] : List ℚ).drop 6).take 4) ∧
    ((([1, 2, 3, 4, 5, 6, 7, 8, 9, 10] : List ℚ).drop 6).take 4).length = 4 ∧
    collateUncondRecord 4 6 [1, 2] = none := by
  have h := c3_collate_unconditional_record 4 6 [1, 2, 3, 4, 5, 6, 7, 8, 9, 10]
    (by decide) (by decide)
  exact ⟨h.1, h.2.1, h.2.2 [1, 2] (by decide)⟩

/-- C4: conditional collation of one record (dataset.py lines 82-109): a
record whose spectrogram has fewer than crop_mel_frames frames is dropped;
otherwise, for any frame-offset draw in [0, num_frames - crop_mel_frames],
the spectrogram window [start, start + crop_mel_frames) is taken and
transposed, the audio is sliced between start * hop_samples and
(start + crop_mel_frames) * hop_samples and right-zero-padded if short, so
the derived audio window length is always exactly
crop_mel_frames * hop_samples. -/
theorem c4_collate_conditional_record (hop crop start : ℕ)
    (spec : List (List ℚ)) (clip : List ℚ)
    (hcrop : crop ≤ spec.length) (hstart : start ≤ spec.length - crop) :
    (collateCondRecord hop crop start spec clip).isSome = true ∧
    (∀ sw aw, collateCondRecord hop crop start spec clip = some (sw, aw) →
      sw = ((spec.drop start).take crop).transpose ∧ aw.length = crop * hop) ∧
    (∀ spec' : List (List ℚ), spec'.length < crop →
      collateCondRecord hop crop start spec' clip = none) := by
  have hnot : ¬ spec.length < crop := by omega
  refine ⟨?_, ?_, ?_⟩
  · simp [collateCondRecord, hnot]
  · intro sw aw h
    simp only [collateCondRecord, if_neg hnot, Option.some.injEq,
      Prod.mk.injEq] at h
    obtain ⟨hsw, haw⟩ := h
    constructor
    · rw [← hsw, Nat.add_sub_cancel_left]
    · rw [← haw]
      have hwle :
          ((clip.drop (start * hop)).take
            ((start + crop) * hop - start * hop)).length ≤
            (start + crop) * hop - start * hop := by
        simp [List.length_take_le]
      simp only [List.length_append, List.length_replicate]
      rw [Nat.add_sub_cancel' hwle, Nat.add_mul]
      omega
  · intro spec' h
    simp only [collateCondRecord, if_pos h]

/-- Witness for C4: hop_samples = 256, crop_mel_frames = 2, a spectrogram
of 5 frames with matching audio of 1280 samples, frame offset 3; and a
1-frame spectrogram record is dropped. -/
theorem c4_collate_conditional_record_witness :
    (collateCondRecord 256 2 3 (List.replicate 5 [0])
      (List.replicate 1280 0)).isSome = true ∧
    collateCondRecord 256 2 3 [[0]] (List.replicate 1280 0) = none := by
  have h := c4_collate_conditional_record 256 2 3 (List.replicate 5 [0])
    (List.replicate 1280 0) (by decide) (by decide)
  exact ⟨h.1, h.2.2 [[0]] (by decide)⟩

/-- C10: any sampling call with a supplied inference noise schedule fails
before any denoising iteration: the schedule-comparison guard (line 38)
looks up the nonexistent model attribute `noise_shedule`, raising
AttributeError, and the re-indexing helper `adjust_Ts` (lines 188-189) has
an empty body, returning None for every argument, so a supplied inference
schedule can never be used successfully. -/
theorem c10_inference_noise_always_fails (cfg : Cfg) (m : ModelAttrs)
    (sqrt : ℚ → ℚ) (randn : List ℕ → List ℚ)
    (eps3 : List ℚ → ℕ → List ℕ → List ℚ) (noiseAt : ℕ → List ℚ)
    (specShape : List ℕ) (infNoise : List ℚ)
    (h : cfg.inference_noise = some infNoise) :
    forward cfg m sqrt randn eps3 noiseAt specShape =
      Except.error PyErr.attributeError ∧
    modelGetAttr m AttrName.noise_shedule = none ∧
    adjust_Ts infNoise = none := by
  refine ⟨?_, rfl, rfl⟩
  simp only [forward, h]
  rfl

/-- Witness for C10 at a concrete configuration carrying an inference
schedule. -/
theorem c10_inference_noise_always_fails_witness :
    forward ⟨some [1/2], false, 2⟩ ⟨[1/2], [1/2]⟩ (fun x => x) (fun _ => [0])
      (fun _ _ _ => [0]) (fun _ => [0]) [3, 4] =
      Except.error PyErr.attributeError ∧
    adjust_Ts [1/2] = none := by
  have h := c10_inference_noise_always_fails ⟨some [1/2], false, 2⟩
    ⟨[1/2], [1/2]⟩ (fun x => x) (fun _ => [0]) (fun _ _ _ => [0])
    (fun _ => [0]) [3, 4] [1/2] rfl
  exact ⟨h.1, h.2.2⟩

/-- C5 fails on the code, in two independent ways: supplying an
InferenceSchedule identical to the model's native schedule (here both are
[1/2]) raises AttributeError at the guard - line 38 reads the misspelled,
nonexistent attribute `noise_shedule` - while the call it must reproduce
bit-for-bit, the one with no inference schedule supplied, does not complete
either under the same fixed randomness (identical oracles on both calls):
it raises TypeError inside the first loop iteration, where line 56's
`self(...)` re-enters forward.  The two calls fail with different
exceptions at different points, so the behaviors are not identical. -/
theorem c5_roundtrip_divergence :
    forward ⟨some [1/2], false, 2⟩ ⟨[1/2], [1/2]⟩ (fun x => x)
      (fun _ => [0, 0]) (fun _ _ _ => [0, 0]) (fun _ => [0, 0]) [3, 4] =
      Except.error PyErr.attributeError ∧
    forward ⟨none, false, 2⟩ ⟨[1/2], [1/2]⟩ (fun x => x)
      (fun _ => [0, 0]) (fun _ _ _ => [0, 0]) (fun _ => [0, 0]) [3, 4] =
      Except.error PyErr.typeError ∧
    PyErr.attributeError ≠ PyErr.typeError := by
  exact ⟨rfl, rfl, by decide⟩

/-- C6 fails on the code in unconditional mode: the local `audio` is
assigned only inside the conditional branch (lines 42-50), so an
unconditional sampling call raises UnboundLocalError at the loop's first
use of `audio` instead of starting from Gaussian noise of a configured
fixed length.  The conditional half of the claim holds: a rank-2
conditioning shape gains a leading batch dimension of size 1 before the
output length is computed, and the initial noise shape is
[batch, hop_samples * num_frames]. -/
theorem c6_unconditional_unbound_audio :
    forward ⟨none, true, 256⟩ ⟨[1/2], [1/2]⟩ (fun x => x) (fun _ => [0])
      (fun _ _ _ => [0]) (fun _ => [0]) [3, 4] =
      Except.error PyErr.unboundLocalError ∧
    normalizeSpecShape [3, 4] = [1, 3, 4] ∧
    initAudioShape 256 [3, 4] = [1, 256 * 4] := by
  refine ⟨rfl, rfl, rfl⟩

/-- C9 fails on the code: when every record of a collation call is filtered
out for insufficient length (here the single clip [1, 2] against
audio_len = 4), the collator does not surface the spec's explicit
EmptyBatchError; `torch.stack` over the empty survivor list raises its
generic RuntimeError instead. -/
theorem c9_empty_batch_runtime_error :
    collate_unconditional 4 [0] [[1, 2]] =
      Except.error PyErr.stackRuntimeError ∧
    PyErr.stackRuntimeError ≠ PyErr.emptyBatchError := by
  exact ⟨rfl, by decide⟩

end DW
